import Mathlib

/-!
Verification of the caching and session layers of the portfolio-admin
repository, shallowly embedded in Lean 4.

The browser's `localStorage` is modelled as an association list from keys
to stored values.  A stored value is always a string in the browser; here
the strings written by the two cache tiers are represented by a small
value universe `LSVal`:

* `LSVal.jdata d`    — the string `JSON.stringify(data)` (read-cache data key);
* `LSVal.jnum n`     — the decimal string of a timestamp, `Date.now().toString()`;
* `LSVal.jentry d t` — the string `JSON.stringify({data, timestamp})`
  (management-cache entry);
* `LSVal.jstr s`     — any other string (tokens, foreign keys, ...).

`JSON.parse` / `parseInt` are modelled as partial decoders on this
universe: a value of the wrong shape decodes to `none`, which corresponds
to `JSON.parse` throwing (caught and turned into `null` by the source) or
`parseInt` producing `NaN`.  A `NaN` timestamp is kept observable: the
read-cache `CacheEntry.timestamp` is an `Option Nat` whose `none` case
models `NaN`, which fails every freshness comparison but still leaves the
entry available to the stale-fallback path, exactly as in the source.

Time is passed explicitly: each operation that calls `Date.now()` takes
the corresponding instant as a `Nat` argument (`now` for the freshness
check at entry, `fetchNow` for the store after the awaited fetch).
Fallible asynchronous calls (`fetcher`, `updater`) are modelled as
`Except` values: `Except.ok` for a resolved promise, `Except.error` for a
rejected one; each is invoked at most once in the source, so a plain
value is a faithful model of the thunk.
-/

/-- The universe of strings stored in `localStorage` by this program. -/
inductive LSVal (α : Type) where
  | jdata : α → LSVal α
  | jnum : Nat → LSVal α
  | jentry : α → Nat → LSVal α
  | jstr : String → LSVal α
deriving DecidableEq

/-- A snapshot of `localStorage`: an association list of key/value pairs.
Lookup returns the first binding of a key. -/
abbrev Store (α : Type) := List (String × LSVal α)

/-- `localStorage.getItem`: first binding of the key, `none` when absent. -/
def lsGet {α : Type} (st : Store α) (k : String) : Option (LSVal α) :=
  match st with
  | [] => none
  | (k1, v) :: rest => if k1 = k then some v else lsGet rest k

/-- `localStorage.removeItem`: drop every binding of the key. -/
def lsRemove {α : Type} (st : Store α) (k : String) : Store α :=
  match st with
  | [] => []
  | (k1, v) :: rest =>
      if k1 = k then lsRemove rest k else (k1, v) :: lsRemove rest k

/-- `localStorage.setItem`: replace any binding of the key with the new value. -/
def lsSet {α : Type} (st : Store α) (k : String) (v : LSVal α) : Store α :=
  lsRemove st k ++ [(k, v)]

/-- JavaScript string falsiness of a stored value: only the empty string is
falsy; the JSON and decimal encodings produced by the caches are never empty. -/
def LSVal.isFalsy {α : Type} : LSVal α → Bool
  | LSVal.jstr s => s = ""
  | _ => false

lemma lsGet_append {α : Type} (s1 s2 : Store α) (k : String) :
    lsGet (s1 ++ s2) k =
      match lsGet s1 k with
      | some v => some v
      | none => lsGet s2 k := by
  induction s1 with
  | nil => simp [lsGet]
  | cons p rest ih =>
      obtain ⟨k1, v⟩ := p
      by_cases h : k1 = k <;> simp [lsGet, h, ih]

lemma lsGet_lsRemove {α : Type} (st : Store α) (k k1 : String) :
    lsGet (lsRemove st k) k1 = if k1 = k then none else lsGet st k1 := by
  induction st with
  | nil => simp [lsGet, lsRemove]
  | cons p rest ih =>
      obtain ⟨k2, v⟩ := p
      by_cases h2 : k2 = k
      · rw [show lsRemove ((k2, v) :: rest) k = lsRemove rest k by
          simp [lsRemove, h2]]
        rw [ih]
        by_cases h1 : k1 = k
        · simp [h1]
        · have hne : ¬k2 = k1 := fun hh => h1 (hh.symm.trans h2)
          simp [lsGet, h1, hne]
      · rw [show lsRemove ((k2, v) :: rest) k = (k2, v) :: lsRemove rest k by
          simp [lsRemove, h2]]
        by_cases h21 : k2 = k1
        · have hk1 : ¬k1 = k := fun hh => h2 (h21.trans hh)
          simp [lsGet, h21, hk1]
        · simp [lsGet, h21, ih]

lemma lsGet_lsSet {α : Type} (st : Store α) (k k1 : String) (v : LSVal α) :
    lsGet (lsSet st k v) k1 = if k1 = k then some v else lsGet st k1 := by
  by_cases h : k1 = k
  · subst h; simp [lsSet, lsGet_append, lsGet_lsRemove, lsGet]
  · simp only [lsSet, lsGet_append, lsGet_lsRemove, h, if_false]
    cases hx : lsGet st k1 <;> simp [lsGet, Ne.symm h, h]

lemma lsGet_some_mem {α : Type} {st : Store α} {k : String} {v : LSVal α}
    (h : lsGet st k = some v) : k ∈ st.map Prod.fst := by
  induction st with
  | nil => simp [lsGet] at h
  | cons p rest ih =>
      obtain ⟨k1, v1⟩ := p
      by_cases h1 : k1 = k
      · simp [h1]
      · simp [lsGet, h1] at h
        simp [ih h]

deriving instance DecidableEq for Except

/-- `JSON.parse` of a read-cache data value, typed at `α`: succeeds exactly on
the serialized-data shape written by the read cache; any other stored string
is modelled as a parse failure (the source catches the throw and yields
`null`). -/
def decodeData {α : Type} : LSVal α → Option α
  | LSVal.jdata d => some d
  | _ => none

/-- `parseInt(s, 10)` of a stored timestamp: a decimal timestamp string
yields its number, anything else yields `NaN`, modelled as `none`. -/
def decodeNat {α : Type} : LSVal α → Option Nat
  | LSVal.jnum n => some n
  | _ => none

namespace ContentfulCache

/- Embedding of the read-cache layer (`src/lib/contentfulCache.ts`, the file
provided as `src/unnamed/part_004`).  Source constant names:
`CACHE_KEY_PREFIX`, `ETAG_KEY_PREFIX`, `TIMESTAMP_KEY_PREFIX`. -/

def cacheKeyPre : String := "cf_cache_"

def etagKeyPre : String := "cf_etag_"

def timestampKeyPre : String := "cf_ts_"

/-- Key for a cache entry: the prefix, the content type, and an optional
`'_' + queryKey` suffix (the suffix is present iff `queryKey` is truthy,
i.e. nonempty). -/
def getCacheKey (contentType queryKey : String) : String :=
  cacheKeyPre ++ contentType ++ (if queryKey = "" then "" else "_" ++ queryKey)

def getEtagKey (contentType queryKey : String) : String :=
  etagKeyPre ++ contentType ++ (if queryKey = "" then "" else "_" ++ queryKey)

def getTimestampKey (contentType queryKey : String) : String :=
  timestampKeyPre ++ contentType ++
    (if queryKey = "" then "" else "_" ++ queryKey)

/-- The record returned by the read-side `getCachedData`.  `etag` is the raw
stored value (or `null`), kept uninterpreted as in the source; `timestamp`
is `none` when `parseInt` would produce `NaN`. -/
structure CacheEntry (α : Type) where
  data : α
  etag : Option (LSVal α)
  timestamp : Option Nat
deriving DecidableEq

/-- Read-side `getCachedData`: requires both the data key and the timestamp
key to be present and truthy; `JSON.parse` failure (caught in the source)
yields `none`. -/
def getCachedData {α : Type} (st : Store α) (contentType queryKey : String) :
    Option (CacheEntry α) :=
  match lsGet st (getCacheKey contentType queryKey),
      lsGet st (getTimestampKey contentType queryKey) with
  | some c, some t =>
      if c.isFalsy || t.isFalsy then none
      else
        match decodeData c with
        | some d =>
            some ⟨d, lsGet st (getEtagKey contentType queryKey), decodeNat t⟩
        | none => none
  | _, _ => none

/-- Read-side `setCachedData`: writes the serialized data under the cache
key, the etag under the etag key only when truthy, and the current time as a
decimal string under the timestamp key. -/
def setCachedData {α : Type} (st : Store α) (contentType : String) (data : α)
    (etag : Option String) (queryKey : String) (now : Nat) : Store α :=
  let st1 := lsSet st (getCacheKey contentType queryKey) (LSVal.jdata data)
  let st2 :=
    match etag with
    | some e => if e = "" then st1
        else lsSet st1 (getEtagKey contentType queryKey) (LSVal.jstr e)
    | none => st1
  lsSet st2 (getTimestampKey contentType queryKey) (LSVal.jnum now)

/-- `clearContentfulCache`: removes the cache, etag and timestamp keys. -/
def clearContentfulCache {α : Type} (st : Store α)
    (contentType queryKey : String) : Store α :=
  let st1 := lsRemove st (getCacheKey contentType queryKey)
  let st2 := lsRemove st1 (getEtagKey contentType queryKey)
  lsRemove st2 (getTimestampKey contentType queryKey)

/-- The fetcher's resolved value in `fetchWithCache`: the source only ever
reads `response.items` (the optional `sys` field is unused and omitted). -/
structure FetchResp (α : Type) where
  items : α
deriving DecidableEq

/-- `fetchWithCache`: on a fresh hit (entry younger than `maxAge`, unless
`skipCache`) return the cached data; otherwise run the fetcher, cache
`response.items` with the current timestamp and return them; if the fetcher
rejects, fall back to any stored entry (fresh or stale) and only otherwise
re-throw.  `now` is `Date.now()` at the freshness check, `fetchNow` at the
store after the awaited fetch. -/
def fetchWithCache {α ε : Type} (fetcher : Except ε (FetchResp α))
    (contentType queryKey : String) (maxAge : Nat) (skipCache : Bool)
    (st : Store α) (now fetchNow : Nat) : Except ε α × Store α :=
  let hit : Option α :=
    if skipCache then none
    else
      match getCachedData st contentType queryKey with
      | some entry =>
          match entry.timestamp with
          | some ts =>
              if (now : Int) - (ts : Int) < (maxAge : Int) then some entry.data
              else none
          | none => none
      | none => none
  match hit with
  | some d => (Except.ok d, st)
  | none =>
      match fetcher with
      | Except.ok resp =>
          (Except.ok resp.items,
            setCachedData st contentType resp.items none queryKey fetchNow)
      | Except.error e =>
          match getCachedData st contentType queryKey with
          | some entry => (Except.ok entry.data, st)
          | none => (Except.error e, st)

/-- `fetchSingleWithCache`: the single-entity variant.  A `none` response
models a null/absent lookup result (returned as-is without caching); on a
rejected fetcher it falls back to any stored entry and otherwise returns
`null` instead of re-throwing. -/
def fetchSingleWithCache {α ε : Type} (fetcher : Except ε (Option α))
    (contentType queryKey : String) (maxAge : Nat) (skipCache : Bool)
    (st : Store α) (now fetchNow : Nat) : Except ε (Option α) × Store α :=
  let hit : Option α :=
    if skipCache then none
    else
      match getCachedData st contentType queryKey with
      | some entry =>
          match entry.timestamp with
          | some ts =>
              if (now : Int) - (ts : Int) < (maxAge : Int) then some entry.data
              else none
          | none => none
      | none => none
  match hit with
  | some d => (Except.ok (some d), st)
  | none =>
      match fetcher with
      | Except.ok none => (Except.ok none, st)
      | Except.ok (some r) =>
          (Except.ok (some r),
            setCachedData st contentType r none queryKey fetchNow)
      | Except.error _ =>
          match getCachedData st contentType queryKey with
          | some entry => (Except.ok (some entry.data), st)
          | none => (Except.ok none, st)

/-- The read contract's notion of a fresh cached value: an entry whose age
is strictly below `maxAge`. -/
def freshData {α : Type} (st : Store α) (contentType queryKey : String)
    (now maxAge : Nat) : Option α :=
  match getCachedData st contentType queryKey with
  | some entry =>
      match entry.timestamp with
      | some ts =>
          if (now : Int) - (ts : Int) < (maxAge : Int) then some entry.data
          else none
      | none => none
  | none => none

end ContentfulCache

namespace MgmtCache

/- Embedding of the management-side cache
(`src/lib/contentfulManagementCache.ts`).  Source constant names:
`MGMT_CACHE_PREFIX`, `MGMT_CACHE_TTL`. -/

def mgmtCachePre : String := "cf_mgmt_"

def MGMT_CACHE_TTL : Nat := 2 * 60 * 1000

def getCacheKey (contentType queryKey : String) : String :=
  mgmtCachePre ++ contentType ++ (if queryKey = "" then "" else "_" ++ queryKey)

/-- Management-side `getCachedData`: parses the single stored
`{data, timestamp}` entry and returns the data only while its age is below
`MGMT_CACHE_TTL`; an expired, missing or malformed entry yields `null`. -/
def getCachedData {α : Type} (st : Store α) (contentType queryKey : String)
    (now : Nat) : Option α :=
  match lsGet st (getCacheKey contentType queryKey) with
  | none => none
  | some c =>
      if c.isFalsy then none
      else
        match c with
        | LSVal.jentry d ts =>
            if (now : Int) - (ts : Int) < (MGMT_CACHE_TTL : Int) then some d
            else none
        | _ => none

/-- Management-side `setCachedData`: stores `{data, timestamp: Date.now()}`
as one JSON value under the management cache key. -/
def setCachedData {α : Type} (st : Store α) (contentType : String) (data : α)
    (queryKey : String) (now : Nat) : Store α :=
  lsSet st (getCacheKey contentType queryKey) (LSVal.jentry data now)

/-- `clearMgmtCache`: removes the management cache key. -/
def clearMgmtCache {α : Type} (st : Store α)
    (contentType queryKey : String) : Store α :=
  lsRemove st (getCacheKey contentType queryKey)

/-- `clearAllMgmtCache`: collects every stored key starting with the
management-cache prefix and removes each of them. -/
def clearAllMgmtCache {α : Type} (st : Store α) : Store α :=
  let keysToRemove :=
    (st.map Prod.fst).filter (fun k => k.startsWith mgmtCachePre)
  keysToRemove.foldl lsRemove st

/-- `fetchWithMgmtCache`: fresh hit (unless `skipCache`) returns the cached
value, otherwise the fetcher runs and a resolved value is cached and
returned; a rejected fetcher's error propagates (the source has no
try/catch around the fetch). -/
def fetchWithMgmtCache {α ε : Type} (fetcher : Except ε α)
    (contentType queryKey : String) (skipCache : Bool) (st : Store α)
    (now fetchNow : Nat) : Except ε α × Store α :=
  match (if skipCache then none else getCachedData st contentType queryKey now) with
  | some cached => (Except.ok cached, st)
  | none =>
      match fetcher with
      | Except.ok data =>
          (Except.ok data, setCachedData st contentType data queryKey fetchNow)
      | Except.error e => (Except.error e, st)

/-- `optimisticUpdate`: writes the optimistic value, runs the updater; on
success writes the result and clears the list-level entry
(`clearMgmtCache(contentType)`, i.e. the empty query key); on failure
clears the entry that was optimistically written and re-throws.
`getOptimisticData` is invoked exactly once, so it is passed by value;
`optNow`/`resNow` are `Date.now()` at the two cache writes. -/
def optimisticUpdate {α ε : Type} (updater : Except ε α) (contentType : String)
    (optimisticData : α) (queryKey : String) (st : Store α)
    (optNow resNow : Nat) : Except ε α × Store α :=
  let st1 := setCachedData st contentType optimisticData queryKey optNow
  match updater with
  | Except.ok result =>
      let st2 := setCachedData st1 contentType result queryKey resNow
      let st3 := clearMgmtCache st2 contentType ""
      (Except.ok result, st3)
  | Except.error e => (Except.error e, clearMgmtCache st1 contentType queryKey)

end MgmtCache

/-- A DOM `StorageEvent` as observed by the admin panel: `key` and
`newValue` are each a string or `null`. -/
structure StorageEvent where
  key : Option String
  newValue : Option String
deriving DecidableEq

/-- JavaScript falsiness of a `string | null` value: `null` and the empty
string are falsy. -/
def jsFalsyStr : Option String → Bool
  | none => true
  | some s => s = ""

/-- `handleStorageChange` from `src/src/AdminPanel.tsx`: returns whether the
`onLogout` callback is invoked for the event, i.e. the truth of
`e.key === '_as_t' && !e.newValue`. -/
def handleStorageChange (e : StorageEvent) : Bool :=
  (e.key = some "_as_t") && jsFalsyStr e.newValue

/-- The states of the untyped `image` value that `getImageUrl`
distinguishes: a resolved asset with `fields.file.url`, an unresolved link
(`sys.type === 'Link'`), or anything else. -/
inductive CfImage where
  | asset : String → CfImage
  | link : CfImage
  | other : CfImage
deriving DecidableEq

/-- The shape of a portfolio entry consumed by `toProject` in
`src/lib/contentful.ts`: `sys.id` plus the `title`, `category` and optional
`image` fields. -/
structure ContentfulItem where
  id : String
  title : String
  category : String
  image : Option CfImage
deriving DecidableEq

/-- `getImageUrl`: prefix a resolved asset url with `https:`; every other
case falls back to the placeholder image. -/
def getImageUrl : Option CfImage → String
  | some (CfImage.asset url) => "https:" ++ url
  | _ => "https://picsum.photos/800/600"

structure Project where
  id : String
  title : String
  category : String
  imageUrl : String
deriving DecidableEq

def toProject (item : ContentfulItem) : Project :=
  ⟨item.id, item.title, item.category, getImageUrl item.image⟩

/-- The argument record of `client.getEntries` as used by the two project
getters (`content_type` and `include`; `include` is a Lean keyword, hence
`includeLevel`). -/
structure EntriesQuery where
  content_type : String
  includeLevel : Nat
deriving DecidableEq

/-- `getProjects`: queries entries of content type `portfolio` with
`include: 2` through `fetchWithCache` (content type `portfolio`, no query
key, five-minute `maxAge`) and maps the items through `toProject`.  The
remote client is passed as a function from the query record to the
response. -/
def getProjects {ε : Type}
    (client : EntriesQuery → Except ε (List ContentfulItem))
    (skipCache : Bool) (st : Store (List ContentfulItem))
    (now fetchNow : Nat) :
    Except ε (List Project) × Store (List ContentfulItem) :=
  let fetcher : Except ε (ContentfulCache.FetchResp (List ContentfulItem)) :=
    Except.map (fun items => ⟨items⟩) (client ⟨"portfolio", 2⟩)
  let r := ContentfulCache.fetchWithCache fetcher "portfolio" ""
    (5 * 60 * 1000) skipCache st now fetchNow
  (Except.map (fun items => items.map toProject) r.1, r.2)

/-- `getGraphicDesignProjects`: per the source comment it deliberately uses
the same query and the same cache key as `getProjects`; the body is the
same line for line. -/
def getGraphicDesignProjects {ε : Type}
    (client : EntriesQuery → Except ε (List ContentfulItem))
    (skipCache : Bool) (st : Store (List ContentfulItem))
    (now fetchNow : Nat) :
    Except ε (List Project) × Store (List ContentfulItem) :=
  let fetcher : Except ε (ContentfulCache.FetchResp (List ContentfulItem)) :=
    Except.map (fun items => ⟨items⟩) (client ⟨"portfolio", 2⟩)
  let r := ContentfulCache.fetchWithCache fetcher "portfolio" ""
    (5 * 60 * 1000) skipCache st now fetchNow
  (Except.map (fun items => items.map toProject) r.1, r.2)

lemma lsGet_foldl_lsRemove {α : Type} (l : List String) (st : Store α)
    (k : String) :
    lsGet (l.foldl lsRemove st) k = if k ∈ l then none else lsGet st k := by
  induction l generalizing st with
  | nil => simp
  | cons a l ih =>
      simp only [List.foldl_cons]
      rw [ih, lsGet_lsRemove]
      by_cases h1 : k ∈ l
      · simp [h1]
      · by_cases h2 : k = a <;> simp [h1, h2, List.mem_cons]

/-- C10: `getProjects` and `getGraphicDesignProjects` are extensionally
equal: for every remote client, skipCache option, localStorage state, and
clock values, both issue the identical `portfolio` query through the same
read-cache entry and return equal project lists and stores. -/
theorem getProjects_eq_getGraphicDesignProjects {ε : Type}
    (client : EntriesQuery → Except ε (List ContentfulItem))
    (skipCache : Bool) (st : Store (List ContentfulItem))
    (now fetchNow : Nat) :
    getProjects client skipCache st now fetchNow =
      getGraphicDesignProjects client skipCache st now fetchNow := rfl

/-- C5: when the updater rejects, `optimisticUpdate` re-throws the original
error and the cache entry for the updated `(contentType, queryKey)` no
longer exists, so no unconfirmed optimistic value survives a failed
write. -/
theorem optimisticUpdate_failure_discards {α ε : Type} (st : Store α)
    (ct qk : String) (opt : α) (optNow resNow : Nat) (e : ε) :
    (MgmtCache.optimisticUpdate (Except.error e) ct opt qk st
        optNow resNow).1 = Except.error e
    ∧ lsGet (MgmtCache.optimisticUpdate (Except.error e) ct opt qk st
        optNow resNow).2 (MgmtCache.getCacheKey ct qk) = none := by
  refine ⟨rfl, ?_⟩
  simp [MgmtCache.optimisticUpdate, MgmtCache.clearMgmtCache,
    MgmtCache.setCachedData, lsGet_lsRemove]

/-- C8: `clearAllMgmtCache` removes exactly the keys bearing the
management-cache prefix: afterwards every such key is absent and every
other key still maps to its previous value, for every localStorage
state. -/
theorem clearAllMgmtCache_exact {α : Type} (st : Store α) (k : String) :
    lsGet (MgmtCache.clearAllMgmtCache st) k =
      if k.startsWith MgmtCache.mgmtCachePre then none else lsGet st k := by
  have hrw : MgmtCache.clearAllMgmtCache st =
      ((st.map Prod.fst).filter
        (fun k => k.startsWith MgmtCache.mgmtCachePre)).foldl lsRemove st :=
    rfl
  rw [hrw, lsGet_foldl_lsRemove]
  by_cases hs : k.startsWith MgmtCache.mgmtCachePre
  · rw [if_pos hs]
    by_cases hm : k ∈ (st.map Prod.fst).filter
        (fun k => k.startsWith MgmtCache.mgmtCachePre)
    · rw [if_pos hm]
    · rw [if_neg hm]
      cases h : lsGet st k with
      | none => rfl
      | some v =>
          have hmem : k ∈ st.map Prod.fst := lsGet_some_mem h
          have hin : k ∈ (st.map Prod.fst).filter
              (fun k => k.startsWith MgmtCache.mgmtCachePre) :=
            List.mem_filter.mpr ⟨hmem, hs⟩
          exact absurd hin hm
  · have hnm : k ∉ (st.map Prod.fst).filter
        (fun k => k.startsWith MgmtCache.mgmtCachePre) :=
      fun hm => hs (List.mem_filter.mp hm).2
    rw [if_neg hnm, if_neg hs]

/-- C3: for every key, if the fetcher rejects then `fetchWithCache` returns
the stored entry's data whenever any cache entry exists (fresh or stale)
and leaves the store unchanged; only when no entry exists does the error
propagate. -/
theorem fetchWithCache_stale_fallback {α ε : Type} (st : Store α)
    (ct qk : String) (maxAge : Nat) (skipCache : Bool) (now fetchNow : Nat)
    (e : ε) :
    ContentfulCache.fetchWithCache (α := α) (Except.error e) ct qk maxAge
        skipCache st now fetchNow =
      match ContentfulCache.getCachedData st ct qk with
      | some entry => (Except.ok entry.data, st)
      | none => (Except.error e, st) := by
  unfold ContentfulCache.fetchWithCache
  cases hg : ContentfulCache.getCachedData st ct qk with
  | none => cases skipCache <;> simp [hg]
  | some entry =>
      cases skipCache
      · cases hts : entry.timestamp with
        | none => simp [hg, hts]
        | some ts =>
            by_cases hf : (now : Int) - (ts : Int) < (maxAge : Int) <;>
              simp [hg, hts, hf]
      · simp [hg]


lemma cacheKey_ne_timestampKey (ct qk : String) :
    ContentfulCache.getCacheKey ct qk ≠
      ContentfulCache.getTimestampKey ct qk := by
  intro h
  have hl := congrArg String.length h
  have h9 : ("cf_cache_" : String).length = 9 := rfl
  have h6 : ("cf_ts_" : String).length = 6 := rfl
  simp only [ContentfulCache.getCacheKey, ContentfulCache.getTimestampKey,
    ContentfulCache.cacheKeyPre, ContentfulCache.timestampKeyPre,
    String.length_append, h9, h6] at hl
  omega

lemma cacheKey_ne_mgmtKey (ct qk : String) :
    ContentfulCache.getCacheKey ct qk ≠ MgmtCache.getCacheKey ct qk := by
  intro h
  have hl := congrArg String.length h
  have h9 : ("cf_cache_" : String).length = 9 := rfl
  have h8 : ("cf_mgmt_" : String).length = 8 := rfl
  simp only [ContentfulCache.getCacheKey, MgmtCache.getCacheKey,
    ContentfulCache.cacheKeyPre, MgmtCache.mgmtCachePre,
    String.length_append, h9, h8] at hl
  omega

lemma mgmtKey_nonempty_ne (ct qk : String) (h : qk ≠ "") :
    MgmtCache.getCacheKey ct qk ≠ MgmtCache.getCacheKey ct "" := by
  intro he
  have hl := congrArg String.length he
  unfold MgmtCache.getCacheKey at hl
  rw [if_neg h, if_pos rfl] at hl
  have h1 : ("_" : String).length = 1 := rfl
  have h0 : ("" : String).length = 0 := rfl
  simp only [String.length_append, h1, h0] at hl
  omega

/-- C1 (amended): for every contentType and nonempty queryKey, after a
successful `optimisticUpdate` the cache entry for `(contentType, queryKey)`
holds the updater's result and the list-level entry (empty queryKey) is
invalidated; with the default empty queryKey the final list-level clear
removes the entry that was just written, so no entry survives. -/
theorem optimisticUpdate_success_nonempty_key {α ε : Type} (st : Store α)
    (ct qk : String) (hqk : qk ≠ "") (opt r : α) (optNow resNow : Nat) :
    (MgmtCache.optimisticUpdate (Except.ok r : Except ε α) ct opt qk st
        optNow resNow).1 = Except.ok r
    ∧ lsGet (MgmtCache.optimisticUpdate (Except.ok r : Except ε α) ct opt qk
        st optNow resNow).2 (MgmtCache.getCacheKey ct qk)
        = some (LSVal.jentry r resNow)
    ∧ lsGet (MgmtCache.optimisticUpdate (Except.ok r : Except ε α) ct opt qk
        st optNow resNow).2 (MgmtCache.getCacheKey ct "") = none := by
  have hne : MgmtCache.getCacheKey ct qk ≠ MgmtCache.getCacheKey ct "" :=
    mgmtKey_nonempty_ne ct qk hqk
  refine ⟨rfl, ?_, ?_⟩ <;>
    simp [MgmtCache.optimisticUpdate, MgmtCache.setCachedData,
      MgmtCache.clearMgmtCache, lsGet_lsRemove, lsGet_lsSet, hne]

/-- C1 (counterexample): with the default empty queryKey, a successful
`optimisticUpdate` leaves no cache entry for `(contentType, queryKey)` at
all — the final list-level invalidation removes the entry holding the
updater's result, contradicting the claim that the entry holds that
result. -/
theorem optimisticUpdate_default_key_counterexample :
    lsGet (MgmtCache.optimisticUpdate (Except.ok 5 : Except String Nat)
        "portfolio" 9 "" ([] : Store Nat) 10 20).2
      (MgmtCache.getCacheKey "portfolio" "") = none
    ∧ lsGet (MgmtCache.optimisticUpdate (Except.ok 5 : Except String Nat)
        "portfolio" 9 "" ([] : Store Nat) 10 20).2
      (MgmtCache.getCacheKey "portfolio" "")
      ≠ some (LSVal.jentry 5 20) := by
  refine ⟨by decide, by decide⟩

theorem optimisticUpdate_success_nonempty_key_witness :
    (MgmtCache.optimisticUpdate (Except.ok 7 : Except String Nat) "portfolio"
        3 "item1" ([] : Store Nat) 10 20).1 = Except.ok 7
    ∧ lsGet (MgmtCache.optimisticUpdate (Except.ok 7 : Except String Nat)
        "portfolio" 3 "item1" ([] : Store Nat) 10 20).2
        (MgmtCache.getCacheKey "portfolio" "item1")
        = some (LSVal.jentry 7 20)
    ∧ lsGet (MgmtCache.optimisticUpdate (Except.ok 7 : Except String Nat)
        "portfolio" 3 "item1" ([] : Store Nat) 10 20).2
        (MgmtCache.getCacheKey "portfolio" "") = none :=
  optimisticUpdate_success_nonempty_key ([] : Store Nat) "portfolio" "item1"
    (by decide) 3 7 10 20

/-- C2 (amended): `fetchWithMgmtCache` has no stale-fallback: whenever the
fetcher is reached (skipCache set, or no fresh management-cache entry) and
it rejects, the error propagates to the caller unchanged and the store is
untouched, regardless of any stale stored entry. -/
theorem fetchWithMgmtCache_error_propagates {α ε : Type} (st : Store α)
    (ct qk : String) (skipCache : Bool) (now fetchNow : Nat) (e : ε)
    (h : skipCache = true ∨ MgmtCache.getCachedData st ct qk now = none) :
    MgmtCache.fetchWithMgmtCache (Except.error e : Except ε α) ct qk
      skipCache st now fetchNow = (Except.error e, st) := by
  unfold MgmtCache.fetchWithMgmtCache
  have hmiss : (if skipCache then none
      else MgmtCache.getCachedData st ct qk now) = none := by
    rcases h with h | h <;> simp [h]
  rw [hmiss]

/-- C2 (counterexample): a stale management-cache entry exists for the key,
the fetcher rejects, and `fetchWithMgmtCache` still propagates the error
instead of returning the stale entry's data. -/
theorem fetchWithMgmtCache_stale_counterexample :
    lsGet ([("cf_mgmt_portfolio", LSVal.jentry 42 0)] : Store Nat)
        (MgmtCache.getCacheKey "portfolio" "") = some (LSVal.jentry 42 0)
    ∧ MgmtCache.fetchWithMgmtCache (Except.error "boom" : Except String Nat)
        "portfolio" "" false
        ([("cf_mgmt_portfolio", LSVal.jentry 42 0)] : Store Nat)
        500000 500000
      = (Except.error "boom",
         [("cf_mgmt_portfolio", LSVal.jentry 42 0)]) := by
  refine ⟨by decide, by decide⟩

theorem fetchWithMgmtCache_error_propagates_witness :
    MgmtCache.fetchWithMgmtCache (Except.error "down" : Except String Nat)
      "portfolio" "" false ([] : Store Nat) 0 0
      = (Except.error "down", ([] : Store Nat)) :=
  fetchWithMgmtCache_error_propagates ([] : Store Nat) "portfolio" "" false
    0 0 "down" (Or.inr (by decide))

lemma fetchWithCache_eq {α ε : Type} (f : Except ε (ContentfulCache.FetchResp α))
    (ct qk : String) (maxAge : Nat) (skipCache : Bool) (st : Store α)
    (now fetchNow : Nat) :
    ContentfulCache.fetchWithCache f ct qk maxAge skipCache st now fetchNow =
      match (if skipCache then none
          else ContentfulCache.freshData st ct qk now maxAge) with
      | some d => (Except.ok d, st)
      | none =>
          match f with
          | Except.ok resp =>
              (Except.ok resp.items,
                ContentfulCache.setCachedData st ct resp.items none qk fetchNow)
          | Except.error e =>
              match ContentfulCache.getCachedData st ct qk with
              | some entry => (Except.ok entry.data, st)
              | none => (Except.error e, st) := rfl

lemma fetchSingleWithCache_eq {α ε : Type} (f : Except ε (Option α))
    (ct qk : String) (maxAge : Nat) (skipCache : Bool) (st : Store α)
    (now fetchNow : Nat) :
    ContentfulCache.fetchSingleWithCache f ct qk maxAge skipCache st now
        fetchNow =
      match (if skipCache then none
          else ContentfulCache.freshData st ct qk now maxAge) with
      | some d => (Except.ok (some d), st)
      | none =>
          match f with
          | Except.ok none => (Except.ok none, st)
          | Except.ok (some r) =>
              (Except.ok (some r),
                ContentfulCache.setCachedData st ct r none qk fetchNow)
          | Except.error _ =>
              match ContentfulCache.getCachedData st ct qk with
              | some entry => (Except.ok (some entry.data), st)
              | none => (Except.ok none, st) := rfl

/-- C4: with `skipCache` unset and a cache entry younger than `maxAge`, the
cached data is returned and the fetcher is never consulted (the result is
the same for every fetcher); otherwise (skipCache, or no fresh entry) the
fetcher runs, its value is stored under the cache key with the current
timestamp under the timestamp key, and that value is returned. -/
theorem fetchWithCache_freshness_contract {α ε : Type} (st : Store α)
    (ct qk : String) (maxAge : Nat) (skipCache : Bool) (now fetchNow : Nat) :
    (∀ (d : α) (f : Except ε (ContentfulCache.FetchResp α)),
        skipCache = false →
        ContentfulCache.freshData st ct qk now maxAge = some d →
        ContentfulCache.fetchWithCache f ct qk maxAge skipCache st now
          fetchNow = (Except.ok d, st))
    ∧ ((skipCache = true ∨
          ContentfulCache.freshData st ct qk now maxAge = none) →
        ∀ resp : ContentfulCache.FetchResp α,
          ContentfulCache.fetchWithCache
              (Except.ok resp : Except ε (ContentfulCache.FetchResp α)) ct qk
              maxAge skipCache st now fetchNow
            = (Except.ok resp.items,
               ContentfulCache.setCachedData st ct resp.items none qk fetchNow)
          ∧ lsGet (ContentfulCache.setCachedData st ct resp.items none qk
                fetchNow) (ContentfulCache.getCacheKey ct qk)
              = some (LSVal.jdata resp.items)
          ∧ lsGet (ContentfulCache.setCachedData st ct resp.items none qk
                fetchNow) (ContentfulCache.getTimestampKey ct qk)
              = some (LSVal.jnum fetchNow)) := by
  constructor
  · intro d f hskip hfresh
    rw [fetchWithCache_eq, hskip, hfresh]
    rfl
  · intro h resp
    have hmiss : (if skipCache then none
        else ContentfulCache.freshData st ct qk now maxAge) = none := by
      rcases h with h | h <;> simp [h]
    refine ⟨by rw [fetchWithCache_eq, hmiss], ?_, ?_⟩
    · simp [ContentfulCache.setCachedData, lsGet_lsSet,
        cacheKey_ne_timestampKey ct qk]
    · simp [ContentfulCache.setCachedData, lsGet_lsSet]

theorem fetchWithCache_freshness_contract_witness :
    ContentfulCache.fetchWithCache
        (Except.error "down" : Except String (ContentfulCache.FetchResp Nat))
        "portfolio" "" 5000 false
        ([("cf_cache_portfolio", LSVal.jdata 42),
          ("cf_ts_portfolio", LSVal.jnum 0)] : Store Nat) 3000 3000
      = (Except.ok 42,
         [("cf_cache_portfolio", LSVal.jdata 42),
          ("cf_ts_portfolio", LSVal.jnum 0)])
    ∧ ContentfulCache.fetchWithCache
        (Except.ok ⟨7⟩ : Except String (ContentfulCache.FetchResp Nat))
        "portfolio" "" 5000 true ([] : Store Nat) 6000 6000
      = (Except.ok 7,
         ContentfulCache.setCachedData ([] : Store Nat) "portfolio" 7 none ""
           6000) :=
  ⟨(fetchWithCache_freshness_contract
      ([("cf_cache_portfolio", LSVal.jdata 42),
        ("cf_ts_portfolio", LSVal.jnum 0)] : Store Nat)
      "portfolio" "" 5000 false 3000 3000).1 42 (Except.error "down") rfl
      (by decide),
   ((fetchWithCache_freshness_contract ([] : Store Nat) "portfolio" "" 5000
      true 6000 6000).2 (Or.inl rfl) ⟨7⟩).1⟩

/-- C6: `fetchSingleWithCache` yields `null` rather than an error when the
lookup finds nothing and no fallback exists: with no fresh cache entry, a
fetcher resolving to a null value gives `Except.ok none`, and a rejecting
fetcher with no stored entry for the key also gives `Except.ok none`; the
store is unchanged in both cases. -/
theorem fetchSingleWithCache_returns_null {α ε : Type} (st : Store α)
    (ct qk : String) (maxAge : Nat) (skipCache : Bool) (now fetchNow : Nat)
    (h : skipCache = true ∨
      ContentfulCache.freshData st ct qk now maxAge = none) :
    ContentfulCache.fetchSingleWithCache
        (Except.ok none : Except ε (Option α)) ct qk maxAge skipCache st now
        fetchNow = (Except.ok none, st)
    ∧ ∀ e : ε, ContentfulCache.getCachedData st ct qk = none →
        ContentfulCache.fetchSingleWithCache (Except.error e) ct qk maxAge
          skipCache st now fetchNow = (Except.ok none, st) := by
  have hmiss : (if skipCache then none
      else ContentfulCache.freshData st ct qk now maxAge) = none := by
    rcases h with h | h <;> simp [h]
  constructor
  · rw [fetchSingleWithCache_eq, hmiss]
  · intro e hce
    rw [fetchSingleWithCache_eq, hmiss]
    simp [hce]

theorem fetchSingleWithCache_returns_null_witness :
    ContentfulCache.fetchSingleWithCache
        (Except.ok none : Except String (Option Nat)) "portfolio" "id1" 5000
        false ([] : Store Nat) 0 0 = (Except.ok none, ([] : Store Nat))
    ∧ ContentfulCache.fetchSingleWithCache
        (Except.error "down" : Except String (Option Nat)) "portfolio" "id1"
        5000 false ([] : Store Nat) 0 0
      = (Except.ok none, ([] : Store Nat)) :=
  have h := fetchSingleWithCache_returns_null (α := Nat) (ε := String)
    ([] : Store Nat) "portfolio" "id1" 5000 false 0 0 (Or.inr (by decide))
  ⟨h.1, h.2 "down" (by decide)⟩

/-- C7 (amended): the read cache stores the serialized data alone under the
`cf_cache_` key and the timestamp separately under the `cf_ts_` key (with a
best-effort etag key), while the management cache stores the single JSON
object `{data, timestamp}` under its parallel, distinct `cf_mgmt_` key. -/
theorem cache_storage_format {α : Type} (st : Store α) (ct qk : String)
    (d : α) (t : Nat) :
    lsGet (ContentfulCache.setCachedData st ct d none qk t)
        (ContentfulCache.getCacheKey ct qk) = some (LSVal.jdata d)
    ∧ lsGet (ContentfulCache.setCachedData st ct d none qk t)
        (ContentfulCache.getTimestampKey ct qk) = some (LSVal.jnum t)
    ∧ lsGet (MgmtCache.setCachedData st ct d qk t)
        (MgmtCache.getCacheKey ct qk) = some (LSVal.jentry d t)
    ∧ ContentfulCache.getCacheKey ct qk ≠ MgmtCache.getCacheKey ct qk := by
  refine ⟨?_, ?_, ?_, cacheKey_ne_mgmtKey ct qk⟩
  · simp [ContentfulCache.setCachedData, lsGet_lsSet,
      cacheKey_ne_timestampKey ct qk]
  · simp [ContentfulCache.setCachedData, lsGet_lsSet]
  · simp [MgmtCache.setCachedData, lsGet_lsSet]

/-- C7 (counterexample): after a read-cache write, the key for the entry
holds the bare serialized data, not the combined data-plus-timestamp JSON
object the claim states for read-cache entries. -/
theorem cache_format_counterexample :
    lsGet (ContentfulCache.setCachedData ([] : Store Nat) "hero" 42 none ""
        1000) (ContentfulCache.getCacheKey "hero" "")
      = some (LSVal.jdata 42)
    ∧ (LSVal.jdata 42 : LSVal Nat) ≠ LSVal.jentry 42 1000 := by
  refine ⟨by decide, by decide⟩

/-- C9 (amended): the cross-tab logout handler fires exactly when the
event's key is the session-token key and its `newValue` is falsy, i.e.
`null` or the empty string — not only on `null`. -/
theorem handleStorageChange_iff (e : StorageEvent) :
    handleStorageChange e = true ↔
      e.key = some "_as_t"
        ∧ (e.newValue = none ∨ e.newValue = some "") := by
  obtain ⟨k, v⟩ := e
  simp only [handleStorageChange, Bool.and_eq_true, decide_eq_true_eq]
  cases v with
  | none => simp [jsFalsyStr]
  | some s => simp [jsFalsyStr]

/-- C9 (counterexample): a storage event for the token key whose `newValue`
is the empty string (not `null`) still invokes the logout callback,
refuting the claim that logout fires only when `newValue` is `null`. -/
theorem handleStorageChange_empty_counterexample :
    handleStorageChange ⟨some "_as_t", some ""⟩ = true
    ∧ (some "" : Option String) ≠ none := by
  refine ⟨by decide, by simp⟩
